import Mathlib

/-!
Verification of the mortgage-analysis core (`mortage.py`, `house.py`,
`simulations.py`) against its specification.

Modelling conventions:
* Python `float` arithmetic is modelled by exact rational arithmetic (`ℚ`);
  `round(x, 2)` is modelled by `round2` below (round-to-nearest at two
  decimals).
* A Python computation that raises `ZeroDivisionError` is modelled by an
  `Option`-valued function returning `none` exactly when the Python code
  would divide by zero.
* `term_years` is taken in `ℕ`; every claim is settled inside this
  sub-domain of Python's `int`.
* Objects of the Python classes `Mortgage` and `House` are structures; the
  derived attributes set in `__init__` (`term_months`, `monthly_interest`)
  are functions of the stored fields, which is faithful because the entities
  are immutable after construction.
-/

/-- Rounding to two decimal places, the model of Python's `round(x, 2)`. -/
def round2 (q : ℚ) : ℚ := ((round (q * 100) : ℤ) : ℚ) / 100

/-- Embedding of the `Mortgage` class of `mortage.py`: the three parameters
stored by `__init__`. -/
structure Mortgage where
  capital : ℚ
  interest_rate : ℚ
  term_years : ℕ

/-- Derived attribute `self.term_months = term_years * 12` from `__init__`. -/
def Mortgage.term_months (m : Mortgage) : ℕ := m.term_years * 12

/-- Derived attribute `self.monthly_interest = interest_rate / (12 * 100)`
from `__init__`. -/
def Mortgage.monthly_interest (m : Mortgage) : ℚ := m.interest_rate / (12 * 100)

/-- Embedding of `Mortgage.calculate_monthly_payment`: the zero-rate branch
divides `capital` by `term_months`; the general branch applies the French
amortization formula.  Returns `none` exactly where Python raises
`ZeroDivisionError` (a zero denominator). -/
def Mortgage.calculate_monthly_payment (m : Mortgage) : Option ℚ :=
  if m.monthly_interest = 0 then
    if m.term_months = 0 then none
    else some (m.capital / (m.term_months : ℚ))
  else
    if (1 + m.monthly_interest) ^ m.term_months - 1 = 0 then none
    else some (m.capital * m.monthly_interest * (1 + m.monthly_interest) ^ m.term_months /
      ((1 + m.monthly_interest) ^ m.term_months - 1))

/-- Embedding of `Mortgage.calculate_total_payment`:
`calculate_monthly_payment() * term_months`. -/
def Mortgage.calculate_total_payment (m : Mortgage) : Option ℚ :=
  m.calculate_monthly_payment.map (fun p => p * (m.term_months : ℚ))

/-- One row of the amortization table (the dict appended in
`generate_amortization_schedule`, keys `Mes`, `Cuota`, `Interés`,
`Capital Amortizado`, `Saldo Pendiente`). -/
structure AmortRecord where
  mes : ℕ
  cuota : ℚ
  interes : ℚ
  capital_amortizado : ℚ
  saldo_pendiente : ℚ
deriving DecidableEq, Repr

/-- The loop body of `Mortgage.generate_amortization_schedule`, recursing on
the number of remaining months.  Each iteration computes the interest and
principal parts, subtracts, clamps the running balance at 0, appends a record
with all four monetary values rounded to two decimals, and breaks as soon as
the (clamped, unrounded) running balance equals 0. -/
def amortStep (m : Mortgage) (pay : ℚ) : ℕ → ℕ → ℚ → List AmortRecord
  | 0, _, _ => []
  | k + 1, month, bal =>
    let interest_payment := bal * m.monthly_interest
    let principal_payment := pay - interest_payment
    let bal2 := max (bal - principal_payment) 0
    let entry : AmortRecord :=
      ⟨month, round2 pay, round2 interest_payment, round2 principal_payment, round2 bal2⟩
    if bal2 = 0 then [entry] else entry :: amortStep m pay k (month + 1) bal2

/-- Embedding of `Mortgage.generate_amortization_schedule`: computes the
monthly payment (which may raise, hence `Option`) and runs the loop for
months `1 .. term_months` starting from balance `capital`. -/
def Mortgage.generate_amortization_schedule (m : Mortgage) : Option (List AmortRecord) :=
  m.calculate_monthly_payment.map (fun pay => amortStep m pay m.term_months 1 m.capital)

/-- Embedding of the `House` class of `house.py`: the six fields stored by
`__init__`. -/
structure House where
  mortgage : Mortgage
  property_tax : ℚ
  home_insurance : ℚ
  maintenance_cost : ℚ
  community_fees : ℚ
  utilities : ℚ

/-- Embedding of `House.monthly_property_tax`. -/
def House.monthly_property_tax (h : House) : ℚ := h.property_tax / 12

/-- Embedding of `House.monthly_home_insurance`. -/
def House.monthly_home_insurance (h : House) : ℚ := h.home_insurance / 12

/-- Embedding of `House.monthly_maintenance_cost`. -/
def House.monthly_maintenance_cost (h : House) : ℚ := h.maintenance_cost / 12

/-- Embedding of `House.total_monthly_cost`: the loan's monthly payment plus
the five overlay components.  `none` when the payment computation raises. -/
def House.total_monthly_cost (h : House) : Option ℚ :=
  h.mortgage.calculate_monthly_payment.map (fun p =>
    p + h.monthly_property_tax + h.monthly_home_insurance +
      h.monthly_maintenance_cost + h.community_fees + h.utilities)

/-- One row of the detailed table built in `House.generate_detailed_schedule`. -/
structure DetailedRecord where
  mes : ℕ
  cuota : ℚ
  interes : ℚ
  capital_amortizado : ℚ
  saldo_pendiente : ℚ
  impuesto_propiedad : ℚ
  seguro_hogar : ℚ
  mantenimiento : ℚ
  gastos_comunidad : ℚ
  utilities : ℚ
  costo_total_mes : ℚ
deriving DecidableEq, Repr

/-- The merged record appended for one amortization row in
`House.generate_detailed_schedule` (lines 101-113 of `house.py`): the four
loan fields are re-rounded, the overlay components are rounded, and the total
cost of the month is the record's installment plus the unrounded monthly
overlay components, rounded at the end. -/
def mkDetailedRecord (h : House) (r : AmortRecord) : DetailedRecord :=
  ⟨r.mes, round2 r.cuota, round2 r.interes, round2 r.capital_amortizado,
    round2 r.saldo_pendiente,
    round2 h.monthly_property_tax, round2 h.monthly_home_insurance,
    round2 h.monthly_maintenance_cost, round2 h.community_fees, round2 h.utilities,
    round2 (r.cuota + h.monthly_property_tax + h.monthly_home_insurance +
      h.monthly_maintenance_cost + h.community_fees + h.utilities)⟩

/-- The loop of `House.generate_detailed_schedule` over the amortization
records: appends a merged record for each row and breaks as soon as the row's
(rounded) `Saldo Pendiente` field equals 0. -/
def detailLoop (h : House) : List AmortRecord → List DetailedRecord
  | [] => []
  | r :: rs =>
    if r.saldo_pendiente = 0 then [mkDetailedRecord h r]
    else mkDetailedRecord h r :: detailLoop h rs

/-- Embedding of `House.generate_detailed_schedule`: generates the mortgage's
amortization schedule (which may raise) and runs the merging loop over it. -/
def House.generate_detailed_schedule (h : House) : Option (List DetailedRecord) :=
  h.mortgage.generate_amortization_schedule.map (detailLoop h)

/-- Characterization helper for the amended claim C1: the longest prefix of a
record list that ends at the first record whose rounded remaining balance is
0 (the whole list when no such record exists). -/
def takeUntilZeroBalance : List AmortRecord → List AmortRecord
  | [] => []
  | r :: rs => if r.saldo_pendiente = 0 then [r] else r :: takeUntilZeroBalance rs

/-- Failure modes of `MortgageSimulator.calculate_required_interest`:
a `ZeroDivisionError` escaping from a trial payment computation, or the
`ValueError` raised when the iteration budget is exhausted. -/
inductive SolverErr where
  | zeroDiv : SolverErr
  | rateNotFound : SolverErr
deriving DecidableEq, Repr

/-- The bisection loop of `MortgageSimulator.calculate_required_interest`,
recursing on the remaining iteration budget: at each step it halves the
bracket at `mid`, builds a trial `Mortgage` at rate `mid`, and returns `mid`
when the trial payment is within `1e-6` of the target; an exhausted budget is
the `ValueError` (`rateNotFound`). -/
def bisectGo (capital : ℚ) (term_years : ℕ) (target : ℚ) :
    ℕ → ℚ → ℚ → Except SolverErr ℚ
  | 0, _, _ => Except.error SolverErr.rateNotFound
  | k + 1, lower_bound, upper_bound =>
    let mid_rate := (lower_bound + upper_bound) / 2
    match (Mortgage.mk capital mid_rate term_years).calculate_monthly_payment with
    | none => Except.error SolverErr.zeroDiv
    | some payment =>
      if |payment - target| < 1 / 1000000 then Except.ok mid_rate
      else if payment > target then bisectGo capital term_years target k lower_bound mid_rate
      else bisectGo capital term_years target k mid_rate upper_bound

/-- Embedding of `MortgageSimulator.calculate_required_interest`: bisection
over rates in `[0, 100]` with tolerance `1e-6` and at most `1000`
iterations. -/
def calculate_required_interest (capital : ℚ) (term_years : ℕ)
    (max_monthly_payment : ℚ) : Except SolverErr ℚ :=
  bisectGo capital term_years max_monthly_payment 1000 0 100

-- Basic facts about the embedding, shared by several claim proofs.

lemma round2_zero : round2 0 = 0 := by simp [round2]

lemma monthly_interest_mk (c r : ℚ) (t : ℕ) :
    (Mortgage.mk c r t).monthly_interest = r / 1200 := by
  simp [Mortgage.monthly_interest]
  norm_num

lemma term_months_mk (c r : ℚ) (t : ℕ) :
    (Mortgage.mk c r t).term_months = t * 12 := rfl

/-- At a zero annual rate the payment is the plain division. -/
lemma payment_zero_rate (c : ℚ) (t : ℕ) (ht : t ≠ 0) :
    (Mortgage.mk c 0 t).calculate_monthly_payment = some (c / ((t * 12 : ℕ) : ℚ)) := by
  unfold Mortgage.calculate_monthly_payment
  rw [monthly_interest_mk, term_months_mk]
  simp [ht]

/-- At a positive annual rate the denominator of the general formula is
positive, so the payment is the annuity value. -/
lemma payment_pos_rate (c r : ℚ) (t : ℕ) (hr : 0 < r) (ht : t ≠ 0) :
    (Mortgage.mk c r t).calculate_monthly_payment =
      some (c * (r / 1200) * (1 + r / 1200) ^ (t * 12) /
        ((1 + r / 1200) ^ (t * 12) - 1)) := by
  have hi : (0 : ℚ) < r / 1200 := by positivity
  have hx : (1 : ℚ) < 1 + r / 1200 := by linarith
  have hpow : (1 : ℚ) < (1 + r / 1200) ^ (t * 12) :=
    one_lt_pow₀ hx (by omega)
  have hd : (1 + r / 1200) ^ (t * 12) - 1 ≠ 0 := by linarith
  unfold Mortgage.calculate_monthly_payment
  rw [monthly_interest_mk, term_months_mk]
  simp [hi.ne', hd]

/-- A valid loan's payment never raises. -/
lemma payment_isSome (c r : ℚ) (t : ℕ) (hr : 0 ≤ r) (ht : t ≠ 0) :
    ∃ p, (Mortgage.mk c r t).calculate_monthly_payment = some p := by
  rcases eq_or_lt_of_le hr with h0 | hpos
  · exact ⟨_, by rw [← h0]; exact payment_zero_rate c t ht⟩
  · exact ⟨_, payment_pos_rate c r t hpos ht⟩

-- Claim theorems for the simpler claims.

/-- C7: for every valid Loan with annual rate 0, `calculate_monthly_payment`
returns exactly `principal / term_months`, via the pure-division branch. -/
theorem zero_rate_payment_exact (c : ℚ) (t : ℕ) (ht : 1 ≤ t) :
    (Mortgage.mk c 0 t).calculate_monthly_payment =
      some (c / ((Mortgage.mk c 0 t).term_months : ℚ)) :=
  payment_zero_rate c t (by omega)

/-- Witness for C7 at a concrete valid loan. -/
theorem zero_rate_payment_exact_witness :
    (1 : ℕ) ≤ 1 ∧ (Mortgage.mk 600 0 1).calculate_monthly_payment =
      some (600 / ((Mortgage.mk 600 0 1).term_months : ℚ)) :=
  ⟨le_refl 1, zero_rate_payment_exact 600 1 (le_refl 1)⟩

/-- C8: for every valid Loan, `calculate_total_payment()` equals
`calculate_monthly_payment()` multiplied by `term_months`. -/
theorem total_payment_identity (c r : ℚ) (t : ℕ) (hc : 0 < c) (hr : 0 ≤ r)
    (ht : 1 ≤ t) :
    ∃ p, (Mortgage.mk c r t).calculate_monthly_payment = some p ∧
      (Mortgage.mk c r t).calculate_total_payment =
        some (p * ((Mortgage.mk c r t).term_months : ℚ)) := by
  obtain ⟨p, hp⟩ := payment_isSome c r t hr (by omega)
  exact ⟨p, hp, by simp [Mortgage.calculate_total_payment, hp]⟩

/-- Witness for C8 at a concrete valid loan. -/
theorem total_payment_identity_witness :
    (0 : ℚ) < 1200 ∧ (0 : ℚ) ≤ 3 ∧ (1 : ℕ) ≤ 30 ∧
      ∃ p, (Mortgage.mk 1200 3 30).calculate_monthly_payment = some p ∧
        (Mortgage.mk 1200 3 30).calculate_total_payment =
          some (p * ((Mortgage.mk 1200 3 30).term_months : ℚ)) :=
  ⟨by norm_num, by norm_num, by norm_num,
    total_payment_identity 1200 3 30 (by norm_num) (by norm_num) (by norm_num)⟩

/-- C9: for every House whose loan payment computes, `total_monthly_cost()`
equals the loan's monthly payment plus `property_tax/12`, `home_insurance/12`,
`maintenance_cost/12`, `community_fees` and `utilities`, as a pure function of
the stored fields. -/
theorem total_monthly_cost_additive (h : House) (p : ℚ)
    (hp : h.mortgage.calculate_monthly_payment = some p) :
    h.total_monthly_cost = some (p + h.property_tax / 12 + h.home_insurance / 12 +
      h.maintenance_cost / 12 + h.community_fees + h.utilities) := by
  simp [House.total_monthly_cost, hp, House.monthly_property_tax,
    House.monthly_home_insurance, House.monthly_maintenance_cost]

/-- Witness for C9 at a concrete house (loan `1200 €` at `0 %` over one year,
payment `100 €`). -/
theorem total_monthly_cost_additive_witness :
    (House.mk (Mortgage.mk 1200 0 1) 120 60 240 30 50).mortgage.calculate_monthly_payment
        = some 100 ∧
      (House.mk (Mortgage.mk 1200 0 1) 120 60 240 30 50).total_monthly_cost =
        some (100 + 120 / 12 + 60 / 12 + 240 / 12 + 30 + 50) :=
  ⟨by norm_num [Mortgage.calculate_monthly_payment, Mortgage.monthly_interest,
      Mortgage.term_months],
    total_monthly_cost_additive
      (House.mk (Mortgage.mk 1200 0 1) 120 60 240 30 50) 100
      (by norm_num [Mortgage.calculate_monthly_payment, Mortgage.monthly_interest,
        Mortgage.term_months])⟩

/-- C10: constructing a Mortgage with `term_years = 0` succeeds and stores
`term_months = 0`, but `calculate_monthly_payment` divides by zero for every
annual rate: at rate 0 it divides `capital` by `term_months = 0`, and
otherwise the general-formula denominator `(1 + monthly_rate)^0 - 1 = 0`. -/
theorem term_zero_payment_division_by_zero (c r : ℚ) :
    (Mortgage.mk c r 0).term_months = 0 ∧
      (Mortgage.mk c r 0).calculate_monthly_payment = none := by
  refine ⟨rfl, ?_⟩
  unfold Mortgage.calculate_monthly_payment
  have h0 : (Mortgage.mk c r 0).term_months = 0 := rfl
  rw [h0]
  by_cases hi : (Mortgage.mk c r 0).monthly_interest = 0 <;> simp [hi]

/-- C2: evaluation of the code at an invalid input, every field non-valid:
the constructor performs no validation (the object is produced with the
parameters stored as given), and the payment computation then fails with a
division by zero instead of an `InvalidParameter` error at construction. -/
theorem no_validation_at_construction :
    (Mortgage.mk (-1) (-5) 0).capital = -1 ∧
      (Mortgage.mk (-1) (-5) 0).interest_rate = -5 ∧
      (Mortgage.mk (-1) (-5) 0).term_months = 0 ∧
      (Mortgage.mk (-1) (-5) 0).calculate_monthly_payment = none := by
  refine ⟨rfl, rfl, rfl, ?_⟩
  norm_num [Mortgage.calculate_monthly_payment, Mortgage.monthly_interest,
    Mortgage.term_months]

-- C1: the detailed schedule of a House and its own break condition.

-- Evaluation of the counterexample mortgage `0.04 €` at `0 %` over one year.

lemma cex_monthly_interest : (Mortgage.mk (1/25) 0 1).monthly_interest = 0 := by
  norm_num [Mortgage.monthly_interest]

lemma cex_payment :
    (Mortgage.mk (1/25) 0 1).calculate_monthly_payment = some (1/300) := by
  rw [Mortgage.calculate_monthly_payment, cex_monthly_interest]
  norm_num [Mortgage.term_months]

lemma cex_schedule_eval :
    (Mortgage.mk (1/25) 0 1).generate_amortization_schedule =
      some [⟨1, 0, 0, 0, 1/25⟩, ⟨2, 0, 0, 0, 3/100⟩, ⟨3, 0, 0, 0, 3/100⟩,
        ⟨4, 0, 0, 0, 3/100⟩, ⟨5, 0, 0, 0, 1/50⟩, ⟨6, 0, 0, 0, 1/50⟩,
        ⟨7, 0, 0, 0, 1/50⟩, ⟨8, 0, 0, 0, 1/100⟩, ⟨9, 0, 0, 0, 1/100⟩,
        ⟨10, 0, 0, 0, 1/100⟩, ⟨11, 0, 0, 0, 0⟩, ⟨12, 0, 0, 0, 0⟩] := by
  have h : (Mortgage.mk (1/25) 0 1).generate_amortization_schedule =
      some (amortStep (Mortgage.mk (1/25) 0 1) (1/300) 12 1 (1/25)) := by
    rw [Mortgage.generate_amortization_schedule, cex_payment]; rfl
  rw [h]
  norm_num [amortStep, round2, round_eq, cex_monthly_interest, AmortRecord.mk.injEq]

/-- Core of amended C1: the merging loop emits one record per amortization
row only up to and including the first row whose rounded balance is 0. -/
lemma detailLoop_eq_takeUntil (h : House) (rs : List AmortRecord) :
    detailLoop h rs = (takeUntilZeroBalance rs).map (mkDetailedRecord h) := by
  induction rs with
  | nil => rfl
  | cons r rs ih =>
    by_cases hz : r.saldo_pendiente = 0 <;>
      simp [detailLoop, takeUntilZeroBalance, hz, ih]

/-- C1 counterexample: for the mortgage `0.04 €` at `0 %` over one year, the
amortization schedule has 12 records but the detailed schedule stops after 11,
because the 11th record's rounded balance is `0.00` while the unrounded
balance is `1/300`.  So `generate_detailed_schedule` does stop on a condition
of its own. -/
theorem detailed_schedule_shorter_cex :
    (House.mk (Mortgage.mk (1/25) 0 1) 0 0 0 0 0).mortgage.generate_amortization_schedule.map
        List.length = some 12 ∧
      (House.mk (Mortgage.mk (1/25) 0 1) 0 0 0 0 0).generate_detailed_schedule.map
        List.length = some 11 := by
  constructor
  · rw [show (House.mk (Mortgage.mk (1/25) 0 1) 0 0 0 0 0).mortgage =
      Mortgage.mk (1/25) 0 1 from rfl, cex_schedule_eval]
    rfl
  · rw [House.generate_detailed_schedule,
      show (House.mk (Mortgage.mk (1/25) 0 1) 0 0 0 0 0).mortgage =
        Mortgage.mk (1/25) 0 1 from rfl, cex_schedule_eval]
    norm_num [detailLoop]

/-- Amended C1: `generate_detailed_schedule` emits one merged record per
record of the underlying amortization schedule only up to and including the
first record whose rounded remaining balance (`Saldo Pendiente`) equals 0; it
stops on that condition of its own, which can be strictly before the
underlying schedule ends. -/
theorem detailed_schedule_stops_at_first_zero_balance (h : House) :
    h.generate_detailed_schedule =
      h.mortgage.generate_amortization_schedule.map
        (fun s => (takeUntilZeroBalance s).map (mkDetailedRecord h)) := by
  unfold House.generate_detailed_schedule
  cases h.mortgage.generate_amortization_schedule with
  | none => rfl
  | some s => simp [detailLoop_eq_takeUntil]

-- C3: what the amortization loop rounds and when it stops.

/-- C3 counterexample: for the mortgage `0.04 €` at `0 %` over one year, the
record at index 10 (month 11) has rounded remaining balance exactly 0, yet
the loop does not stop there: the schedule has 12 records.  The early stop
tests the unrounded balance, not the rounded one. -/
theorem amortization_no_stop_on_rounded_cex :
    (Mortgage.mk (1/25) 0 1).generate_amortization_schedule.map
        (fun s => (s.length, (s.map AmortRecord.saldo_pendiente).get? 10)) =
      some (12, some 0) := by
  rw [cex_schedule_eval]
  rfl

/-- Amended C3: one iteration of the amortization loop rounds the four
monetary values only in the emitted record; the balance carried into the next
iteration is the unrounded clamped value, and the loop stops early exactly
when that unrounded clamped balance equals 0. -/
theorem amortStep_unrounded_carry_and_exact_stop (m : Mortgage) (pay bal : ℚ)
    (k month : ℕ) :
    amortStep m pay (k + 1) month bal =
      AmortRecord.mk month (round2 pay) (round2 (bal * m.monthly_interest))
          (round2 (pay - bal * m.monthly_interest))
          (round2 (max (bal - (pay - bal * m.monthly_interest)) 0)) ::
        (if max (bal - (pay - bal * m.monthly_interest)) 0 = 0 then []
         else amortStep m pay k (month + 1)
           (max (bal - (pay - bal * m.monthly_interest)) 0)) := by
  simp only [amortStep]
  split <;> simp

-- C4: soundness of the bisection rate solver.

/-- Whenever the bisection loop returns a rate, the trial payment at that
rate was within the tolerance of the target. -/
lemma bisect_ok_sound (c t : ℚ) (ty : ℕ) :
    ∀ fuel lo hi r, bisectGo c ty t fuel lo hi = Except.ok r →
      ∃ p, (Mortgage.mk c r ty).calculate_monthly_payment = some p ∧
        |p - t| < 1 / 1000000 := by
  intro fuel
  induction fuel with
  | zero => intro lo hi r h; exact absurd h (by simp [bisectGo])
  | succ k ih =>
    intro lo hi r h
    simp only [bisectGo] at h
    split at h
    · exact absurd h (by simp)
    · rename_i p heq
      split at h
      · rename_i htol
        cases h
        exact ⟨p, heq, htol⟩
      · rename_i htol
        split at h
        · exact ih lo ((lo + hi) / 2) r h
        · exact ih ((lo + hi) / 2) hi r h

/-- The loop returns the midpoint as soon as the trial payment is within
tolerance of the target. -/
lemma bisect_first_hit (c t : ℚ) (ty : ℕ) (k : ℕ) (lo hi p : ℚ)
    (hp : (Mortgage.mk c ((lo + hi) / 2) ty).calculate_monthly_payment = some p)
    (htol : |p - t| < 1 / 1000000) :
    bisectGo c ty t (k + 1) lo hi = Except.ok ((lo + hi) / 2) := by
  simp only [bisectGo, hp]
  rw [if_pos htol]

/-- Payment of the trial loan `1200 €` at `50 %` over one year, used by the
solver witness. -/
lemma wit_pay50 : (Mortgage.mk 1200 50 1).calculate_monthly_payment =
    some (2980232238769531250 / 23084297339334049) := by
  rw [payment_pos_rate 1200 50 1 (by norm_num) (by norm_num)]
  norm_num

/-- Concrete run of the solver: with the target set to the exact payment at
rate `50 %`, the very first midpoint of `[0, 100]` converges. -/
lemma wit_solver : calculate_required_interest 1200 1
    (2980232238769531250 / 23084297339334049) = Except.ok 50 := by
  have h50 : ((0 : ℚ) + 100) / 2 = 50 := by norm_num
  rw [calculate_required_interest, show (1000 : ℕ) = 999 + 1 from rfl,
    bisect_first_hit 1200 (2980232238769531250 / 23084297339334049) 1 999 0 100
      (2980232238769531250 / 23084297339334049)
      (by rw [h50, wit_pay50]) (by norm_num), h50]

/-- C4: `calculate_required_interest` bisects over `[0, 100]` with tolerance
`1e-6` and budget `1000`; a returned rate always has its monthly payment
within the tolerance of the target, and an exhausted budget is the distinct
`rateNotFound` error rather than a value. -/
theorem required_interest_sound (capital t : ℚ) (ty : ℕ) :
    (∀ r, calculate_required_interest capital ty t = Except.ok r →
      ∃ p, (Mortgage.mk capital r ty).calculate_monthly_payment = some p ∧
        |p - t| < 1 / 1000000) ∧
      ∀ lo hi, bisectGo capital ty t 0 lo hi =
        Except.error SolverErr.rateNotFound :=
  ⟨fun r h => bisect_ok_sound capital t ty 1000 0 100 r h, fun _ _ => rfl⟩

/-- Witness for C4: a concrete solver run that returns `Except.ok 50`, whose
payment is (exactly) the target. -/
theorem required_interest_sound_witness :
    calculate_required_interest 1200 1 (2980232238769531250 / 23084297339334049) =
        Except.ok 50 ∧
      ∃ p, (Mortgage.mk 1200 50 1).calculate_monthly_payment = some p ∧
        |p - 2980232238769531250 / 23084297339334049| < 1 / 1000000 :=
  ⟨wit_solver,
    (required_interest_sound 1200 (2980232238769531250 / 23084297339334049) 1).1
      50 wit_solver⟩

-- C5 and C6: the mathematics of the amortization engine.

/-- Unfolding of one iteration of the amortization loop, for reuse in the
schedule proofs. -/
lemma amortStep_succ (m : Mortgage) (pay bal : ℚ) (k month : ℕ) :
    amortStep m pay (k + 1) month bal =
      AmortRecord.mk month (round2 pay) (round2 (bal * m.monthly_interest))
          (round2 (pay - bal * m.monthly_interest))
          (round2 (max (bal - (pay - bal * m.monthly_interest)) 0)) ::
        (if max (bal - (pay - bal * m.monthly_interest)) 0 = 0 then []
         else amortStep m pay k (month + 1)
           (max (bal - (pay - bal * m.monthly_interest)) 0)) := by
  simp only [amortStep]
  split <;> simp

/-- At a zero monthly rate, a loop started with balance `pay * k` runs for
exactly `k` months and its last record has rounded balance 0. -/
lemma amortStep_zero_rate_spec (m : Mortgage) (hmi : m.monthly_interest = 0)
    (pay : ℚ) (hpay : 0 < pay) :
    ∀ (k month : ℕ) (bal : ℚ), 1 ≤ k → bal = pay * (k : ℚ) →
      (amortStep m pay k month bal).length = k ∧
      (amortStep m pay k month bal).getLast?.map AmortRecord.saldo_pendiente = some 0 := by
  intro k
  induction k with
  | zero => intro month bal hk hbal; exact absurd hk (by omega)
  | succ n ih =>
    intro month bal hk hbal
    rw [amortStep_succ, hmi, mul_zero, sub_zero]
    have hbal2 : max (bal - pay) 0 = pay * n := by
      rw [hbal]
      push_cast
      rw [max_eq_left (by nlinarith [Nat.cast_nonneg (α := ℚ) n])]
      ring
    rw [hbal2]
    rcases Nat.eq_zero_or_pos n with hn | hn
    · subst hn
      norm_num [round2_zero]
    · have hne : pay * (n : ℚ) ≠ 0 := by positivity
      rw [if_neg hne]
      obtain ⟨ihlen, ihlast⟩ := ih (month + 1) (pay * n) (by omega) rfl
      refine ⟨by simp [ihlen], ?_⟩
      cases hl : amortStep m pay n (month + 1) (pay * (n : ℚ)) with
      | nil => rw [hl] at ihlen; simp at ihlen; omega
      | cons a l =>
        rw [hl] at ihlast
        rw [List.getLast?_cons_cons]
        exact ihlast

/-- At a positive monthly rate, a loop whose balance satisfies the exact
annuity invariant runs for exactly `k` months, the balance staying positive
until it reaches exactly 0 at the last month. -/
lemma amortStep_pos_rate_spec (m : Mortgage) (hi : 0 < m.monthly_interest)
    (pay : ℚ) (hpay : 0 < pay) :
    ∀ (k month : ℕ) (bal : ℚ), 1 ≤ k →
      m.monthly_interest * bal * (1 + m.monthly_interest) ^ k =
        pay * ((1 + m.monthly_interest) ^ k - 1) →
      (amortStep m pay k month bal).length = k ∧
      (amortStep m pay k month bal).getLast?.map AmortRecord.saldo_pendiente = some 0 := by
  intro k
  induction k with
  | zero => intro month bal hk hinv; exact absurd hk (by omega)
  | succ n ih =>
    intro month bal hk hinv
    rw [amortStep_succ]
    have hx1 : (1 : ℚ) < 1 + m.monthly_interest := by linarith
    have hx0 : (0 : ℚ) < 1 + m.monthly_interest := by linarith
    rcases Nat.eq_zero_or_pos n with hn | hn
    · subst hn
      have hb : bal - (pay - bal * m.monthly_interest) = 0 := by
        have h1 : m.monthly_interest * bal * (1 + m.monthly_interest) =
            pay * (1 + m.monthly_interest - 1) := by
          simpa using hinv
        have h2 : m.monthly_interest * (bal * (1 + m.monthly_interest) - pay) = 0 := by
          ring_nf
          ring_nf at h1
          linarith
        have h3 : bal * (1 + m.monthly_interest) - pay = 0 :=
          (mul_eq_zero.mp h2).resolve_left (ne_of_gt hi)
        linarith [h3]
      rw [hb]
      norm_num [round2_zero]
    · -- the next balance is positive, so the loop continues
      have hkey : m.monthly_interest * (bal - (pay - bal * m.monthly_interest)) *
          (1 + m.monthly_interest) ^ n =
            pay * ((1 + m.monthly_interest) ^ n - 1) := by
        linear_combination hinv
      have hpow1 : (1 : ℚ) < (1 + m.monthly_interest) ^ n := one_lt_pow₀ hx1 (by omega)
      have hpown : (0 : ℚ) < (1 + m.monthly_interest) ^ n := by positivity
      have hb2pos : 0 < bal - (pay - bal * m.monthly_interest) := by
        nlinarith [hkey, mul_pos hi hpown]
      have hmax : max (bal - (pay - bal * m.monthly_interest)) 0 =
          bal - (pay - bal * m.monthly_interest) := max_eq_left (le_of_lt hb2pos)
      rw [hmax, if_neg (ne_of_gt hb2pos)]
      obtain ⟨ihlen, ihlast⟩ :=
        ih (month + 1) (bal - (pay - bal * m.monthly_interest)) (by omega) hkey
      refine ⟨by simp [ihlen], ?_⟩
      cases hl : amortStep m pay n (month + 1) (bal - (pay - bal * m.monthly_interest)) with
      | nil => rw [hl] at ihlen; simp at ihlen; omega
      | cons a l =>
        rw [hl] at ihlast
        rw [List.getLast?_cons_cons]
        exact ihlast

/-- C5: for every valid Loan the amortization schedule is produced, has
length at most `term_months`, and its final record has remaining balance 0
(in exact arithmetic the length is exactly `term_months`). -/
theorem schedule_length_le_and_final_zero (c r : ℚ) (t : ℕ)
    (hc : 0 < c) (hr : 0 ≤ r) (ht : 1 ≤ t) :
    ∃ s, (Mortgage.mk c r t).generate_amortization_schedule = some s ∧
      s.length ≤ (Mortgage.mk c r t).term_months ∧
      s.getLast?.map AmortRecord.saldo_pendiente = some 0 := by
  rcases eq_or_lt_of_le hr with h0 | hpos
  · have hpay := payment_zero_rate c t (by omega)
    rw [← h0]
    refine ⟨amortStep (Mortgage.mk c 0 t) (c / ((t * 12 : ℕ) : ℚ)) (t * 12) 1 c, ?_, ?_, ?_⟩
    · rw [Mortgage.generate_amortization_schedule, hpay]
      rfl
    · have hmi : (Mortgage.mk c 0 t).monthly_interest = 0 := by
        rw [monthly_interest_mk]; norm_num
      have hpos12 : (0 : ℚ) < ((t * 12 : ℕ) : ℚ) := by
        have h12 : 0 < t * 12 := by omega
        exact_mod_cast h12
      have hpaypos : 0 < c / ((t * 12 : ℕ) : ℚ) := div_pos hc hpos12
      obtain ⟨hlen, _⟩ := amortStep_zero_rate_spec _ hmi _ hpaypos (t * 12) 1 c (by omega)
        (div_mul_cancel₀ c (ne_of_gt hpos12)).symm
      rw [hlen]
      exact le_of_eq rfl
    · have hmi : (Mortgage.mk c 0 t).monthly_interest = 0 := by
        rw [monthly_interest_mk]; norm_num
      have hpos12 : (0 : ℚ) < ((t * 12 : ℕ) : ℚ) := by
        have h12 : 0 < t * 12 := by omega
        exact_mod_cast h12
      have hpaypos : 0 < c / ((t * 12 : ℕ) : ℚ) := div_pos hc hpos12
      obtain ⟨_, hlast⟩ := amortStep_zero_rate_spec _ hmi _ hpaypos (t * 12) 1 c (by omega)
        (div_mul_cancel₀ c (ne_of_gt hpos12)).symm
      exact hlast
  · have hpay := payment_pos_rate c r t hpos (by omega)
    have hmi : (Mortgage.mk c r t).monthly_interest = r / 1200 := monthly_interest_mk c r t
    have hi : 0 < (Mortgage.mk c r t).monthly_interest := by rw [hmi]; positivity
    have hx1 : (1 : ℚ) < 1 + r / 1200 := by linarith [div_pos hpos (show (0:ℚ) < 1200 by norm_num)]
    have hX1 : (1 : ℚ) < (1 + r / 1200) ^ (t * 12) := one_lt_pow₀ hx1 (by omega)
    have hXpos : (0 : ℚ) < (1 + r / 1200) ^ (t * 12) := by positivity
    have hPpos : 0 < c * (r / 1200) * (1 + r / 1200) ^ (t * 12) /
        ((1 + r / 1200) ^ (t * 12) - 1) := by
      apply div_pos
      · positivity
      · linarith
    have hinv : (Mortgage.mk c r t).monthly_interest * c *
        (1 + (Mortgage.mk c r t).monthly_interest) ^ (t * 12) =
          (c * (r / 1200) * (1 + r / 1200) ^ (t * 12) /
            ((1 + r / 1200) ^ (t * 12) - 1)) *
            ((1 + (Mortgage.mk c r t).monthly_interest) ^ (t * 12) - 1) := by
      rw [hmi]
      rw [div_mul_cancel₀ _ (show (1 + r / 1200) ^ (t * 12) - 1 ≠ 0 by linarith)]
      ring
    obtain ⟨hlen, hlast⟩ := amortStep_pos_rate_spec _ hi _ hPpos (t * 12) 1 c (by omega) hinv
    refine ⟨amortStep (Mortgage.mk c r t)
        (c * (r / 1200) * (1 + r / 1200) ^ (t * 12) / ((1 + r / 1200) ^ (t * 12) - 1))
        (t * 12) 1 c, ?_, ?_, hlast⟩
    · rw [Mortgage.generate_amortization_schedule, hpay]
      rfl
    · rw [hlen]
      exact le_of_eq rfl

/-- A nonempty geometric sum with positive base is positive. -/
lemma geomsum_pos {x : ℚ} (hx : 0 < x) {n : ℕ} (hn : 1 ≤ n) :
    0 < ∑ k ∈ Finset.range n, x ^ k :=
  Finset.sum_pos (fun k _ => pow_pos hx k) (by rw [Finset.nonempty_range_iff]; omega)

/-- The annuity payment rewritten over the geometric sum
`c * x^n / (1 + x + ... + x^(n-1))` with `x = 1 + r/1200`; the form in which
monotonicity in the rate is visible. -/
lemma payment_pos_rate_geom (c r : ℚ) (t : ℕ) (hr : 0 < r) (ht : t ≠ 0) :
    (Mortgage.mk c r t).calculate_monthly_payment =
      some (c * (1 + r / 1200) ^ (t * 12) /
        ∑ k ∈ Finset.range (t * 12), (1 + r / 1200) ^ k) := by
  rw [payment_pos_rate c r t hr ht]
  congr 1
  have hx1 : (1 : ℚ) < 1 + r / 1200 := by
    linarith [div_pos hr (show (0:ℚ) < 1200 by norm_num)]
  have hG : (∑ k ∈ Finset.range (t * 12), (1 + r / 1200) ^ k) * (r / 1200) =
      (1 + r / 1200) ^ (t * 12) - 1 := by
    have hgeo := geom_sum_mul (1 + r / 1200) (t * 12)
    simpa using hgeo
  have hGpos : 0 < ∑ k ∈ Finset.range (t * 12), (1 + r / 1200) ^ k :=
    geomsum_pos (by linarith) (by omega)
  have hipos : (0 : ℚ) < r / 1200 := by positivity
  rw [← hG, div_eq_div_iff (by positivity) (ne_of_gt hGpos)]
  ring

/-- The annuity payment at any rate above 0 exceeds the zero-rate payment
`c / n`. -/
lemma annuity_gt_zero_rate (c : ℚ) (n : ℕ) (hc : 0 < c) (hn : 1 ≤ n)
    (x : ℚ) (hx : 1 < x) :
    c / (n : ℚ) < c * x ^ n / ∑ k ∈ Finset.range n, x ^ k := by
  have hx0 : (0 : ℚ) < x := by linarith
  have hG : 0 < ∑ k ∈ Finset.range n, x ^ k := geomsum_pos hx0 hn
  have hn0 : (0 : ℚ) < (n : ℚ) := by exact_mod_cast hn
  rw [div_lt_div_iff₀ hn0 hG]
  have hsum : ∑ k ∈ Finset.range n, x ^ k < ∑ _k ∈ Finset.range n, x ^ n := by
    apply Finset.sum_lt_sum_of_nonempty (by rw [Finset.nonempty_range_iff]; omega)
    intro k hk
    exact pow_lt_pow_right₀ hx (Finset.mem_range.mp hk)
  rw [Finset.sum_const, Finset.card_range, nsmul_eq_mul] at hsum
  nlinarith [hsum]

/-- The annuity payment is strictly increasing in the growth factor `x`
above 1. -/
lemma annuity_strict_mono (c : ℚ) (n : ℕ) (hc : 0 < c) (hn : 1 ≤ n)
    (x y : ℚ) (hx : 1 < x) (hxy : x < y) :
    c * x ^ n / ∑ k ∈ Finset.range n, x ^ k <
      c * y ^ n / ∑ k ∈ Finset.range n, y ^ k := by
  have hx0 : (0 : ℚ) < x := by linarith
  have hy0 : (0 : ℚ) < y := by linarith
  have hGx : 0 < ∑ k ∈ Finset.range n, x ^ k := geomsum_pos hx0 hn
  have hGy : 0 < ∑ k ∈ Finset.range n, y ^ k := geomsum_pos hy0 hn
  rw [div_lt_div_iff₀ hGx hGy]
  have key : x ^ n * ∑ k ∈ Finset.range n, y ^ k <
      y ^ n * ∑ k ∈ Finset.range n, x ^ k := by
    rw [Finset.mul_sum, Finset.mul_sum]
    apply Finset.sum_lt_sum_of_nonempty (by rw [Finset.nonempty_range_iff]; omega)
    intro k hk
    have hkn : k < n := Finset.mem_range.mp hk
    have h1 : x ^ n = x ^ (n - k) * x ^ k := by
      rw [← pow_add]
      congr 1
      omega
    have h2 : y ^ n = y ^ (n - k) * y ^ k := by
      rw [← pow_add]
      congr 1
      omega
    have h3 : x ^ (n - k) < y ^ (n - k) :=
      pow_lt_pow_left₀ hxy (le_of_lt hx0) (by omega)
    have hxk : (0 : ℚ) < x ^ k := pow_pos hx0 k
    have hyk : (0 : ℚ) < y ^ k := pow_pos hy0 k
    rw [h1, h2]
    nlinarith [mul_pos (sub_pos.mpr h3) (mul_pos hxk hyk)]
  nlinarith [key]

/-- C6: for fixed positive principal and positive term,
`calculate_monthly_payment` is strictly increasing in the annual rate over
`[0, 100]`. -/
theorem monthly_payment_strict_mono (c : ℚ) (t : ℕ) (r1 r2 : ℚ)
    (hc : 0 < c) (ht : 1 ≤ t) (h1 : 0 ≤ r1) (h12 : r1 < r2) (h2 : r2 ≤ 100) :
    ∃ p1 p2, (Mortgage.mk c r1 t).calculate_monthly_payment = some p1 ∧
      (Mortgage.mk c r2 t).calculate_monthly_payment = some p2 ∧ p1 < p2 := by
  have ht' : t ≠ 0 := by omega
  have hr2 : 0 < r2 := lt_of_le_of_lt h1 h12
  have hy1 : (1 : ℚ) < 1 + r2 / 1200 := by
    linarith [div_pos hr2 (show (0:ℚ) < 1200 by norm_num)]
  rcases eq_or_lt_of_le h1 with h0 | hpos
  · refine ⟨c / ((t * 12 : ℕ) : ℚ), _, by rw [← h0]; exact payment_zero_rate c t ht',
      payment_pos_rate_geom c r2 t hr2 ht', ?_⟩
    have := annuity_gt_zero_rate c (t * 12) hc (by omega) (1 + r2 / 1200) hy1
    exact_mod_cast this
  · have hx1 : (1 : ℚ) < 1 + r1 / 1200 := by
      linarith [div_pos hpos (show (0:ℚ) < 1200 by norm_num)]
    refine ⟨_, _, payment_pos_rate_geom c r1 t hpos ht',
      payment_pos_rate_geom c r2 t hr2 ht', ?_⟩
    apply annuity_strict_mono c (t * 12) hc (by omega) _ _ hx1
    have : r1 / 1200 < r2 / 1200 := by linarith
    linarith

/-- Witness for C5 at the loan `2400 €` at `0 %` over one year. -/
theorem schedule_length_le_and_final_zero_witness :
    (0 : ℚ) < 2400 ∧ (0 : ℚ) ≤ 0 ∧ (1 : ℕ) ≤ 1 ∧
      ∃ s, (Mortgage.mk 2400 0 1).generate_amortization_schedule = some s ∧
        s.length ≤ (Mortgage.mk 2400 0 1).term_months ∧
        s.getLast?.map AmortRecord.saldo_pendiente = some 0 :=
  ⟨by norm_num, le_refl 0, le_refl 1,
    schedule_length_le_and_final_zero 2400 0 1 (by norm_num) (le_refl 0) (le_refl 1)⟩

/-- Witness for C6: the loan `1000 €` over two years pays strictly more at
`2 %` than at `1 %`. -/
theorem monthly_payment_strict_mono_witness :
    (0 : ℚ) < 1000 ∧ (1 : ℕ) ≤ 2 ∧ (0 : ℚ) ≤ 1 ∧ (1 : ℚ) < 2 ∧ (2 : ℚ) ≤ 100 ∧
      ∃ p1 p2, (Mortgage.mk 1000 1 2).calculate_monthly_payment = some p1 ∧
        (Mortgage.mk 1000 2 2).calculate_monthly_payment = some p2 ∧ p1 < p2 :=
  ⟨by norm_num, by norm_num, by norm_num, by norm_num, by norm_num,
    monthly_payment_strict_mono 1000 2 1 2 (by norm_num) (by norm_num) (by norm_num)
      (by norm_num) (by norm_num)⟩
